import Mathlib

/-!
Verification of the websocket peer transport (`transport/websocketpeer.go`).

The Go code is shallowly embedded as pure Lean functions:

* a `WampMessage` models a `wamp.Message` value; the only content the
  transport ever inspects is `wamp.IsGoodbyeAck`, modelled as a boolean
  field;
* the outbound queue `w.wr` holds `Option WampMessage` items — `none` is
  the Go `nil` interface value used as the shutdown sentinel;
* each goroutine is embedded as a function from its inputs (the sequence
  of items it will dequeue, the sequence of read results, the serializer
  and connection behaviour) to the list of observable `PeerAction`s it
  performs, in program order;
* `Close` and the composed shutdown scenarios concatenate the traces in
  the order forced by the `writerDone` one-shot signal.

Durations are modelled in milliseconds (`time.Second = 1000`).
-/

/-- Models `wamp.Message`: opaque payload identified by `mid`; `goodbyeAck`
models the `wamp.IsGoodbyeAck` predicate used to suppress error logging. -/
structure WampMessage where
  mid : Nat
  goodbyeAck : Bool
deriving DecidableEq, Repr

/-- An item of the outbound channel `w.wr`: `none` is the Go `nil`
interface value, used as the shutdown sentinel. -/
abbrev QItem := Option WampMessage

/-- Observable effects of the peer goroutines, in program order. -/
inductive PeerAction where
  /-- `w.conn.WriteMessage(w.payloadType, b)` succeeding with payload `b`. -/
  | write (b : Nat)
  /-- `w.log.Print`/`Println` of an error. -/
  | logErr
  /-- `close(w.writerDone)` (the deferred raise of the Writer-Done signal). -/
  | writerDone
  /-- `<-w.writerDone` completing (the await of the Writer-Done signal). -/
  | awaitWriterDone
  /-- `close(w.closed)` (setting the Explicit-Close Signal). -/
  | closeSignal
  /-- `w.conn.WriteControl(websocket.CloseMessage, ...)`. -/
  | writeCloseFrame
  /-- `w.conn.Close()`. -/
  | closeConn
  /-- an internal `w.wr <- nil` (enqueue of the shutdown sentinel). -/
  | enqueueSentinel
  /-- `close(w.wr)` — never performed by the code; present so its absence
  is expressible. -/
  | closeQueue
  /-- `w.rd <- msg` (delivery of an inbound message to the router). -/
  | deliver (m : WampMessage)
  /-- `close(w.rd)` (deferred in `recvHandler`). -/
  | closeRd
  /-- `w.conn.WriteMessage(websocket.PingMessage, ...)` succeeding. -/
  | ping
deriving DecidableEq, Repr

/-- `outQueueSize = 16`: capacity of the outbound channel `w.wr`. -/
def outQueueSize : Nat := 16

/-- `ctrlTimeout = 5 * time.Second`, in milliseconds. -/
def ctrlTimeout : Nat := 5000

/-- `time.Second` in milliseconds, for keepalive comparisons. -/
def oneSecond : Nat := 1000

/-- `sendHandler`: drains the outbound channel.  `ser` models
`w.serializer.Serialize` (`none` = encode error), `wOk` models whether
`w.conn.WriteMessage` succeeds on a given payload.  The argument list is
the sequence of items the goroutine dequeues in this execution; an
exhausted list means the goroutine is still blocked in `range w.wr`
(the channel is never closed), so no further action is emitted.  Exits
(`return`) run the deferred `close(w.writerDone)`. -/
def sendHandler (ser : WampMessage → Option Nat) (wOk : Nat → Bool) :
    List QItem → List PeerAction
  | [] => []
  | none :: _ => [PeerAction.writerDone]
  | some m :: rest =>
    match ser m with
    | none => PeerAction.logErr :: sendHandler ser wOk rest
    | some b =>
      if wOk b then PeerAction.write b :: sendHandler ser wOk rest
      else (if m.goodbyeAck then [] else [PeerAction.logErr]) ++ [PeerAction.writerDone]

/-- One result of `w.conn.ReadMessage()` as seen by `recvHandler`. -/
inductive ReadEvent where
  /-- a successful read of a data frame with payload `b`. -/
  | dataFrame (b : Nat)
  /-- a successful read whose `msgType == websocket.CloseMessage`. -/
  | closeFrame
  /-- a read error. -/
  | readErr
deriving DecidableEq, Repr

/-- `recvHandler`: reads frames and pushes decoded messages to `w.rd`.
`deser` models `w.serializer.Deserialize` (`none` = decode error);
`closedSet` is whether the Explicit-Close Signal (`w.closed`) is set when
the read error occurs.  Deferred on exit (LIFO): `w.conn.Close()` then
`close(w.rd)`.  An exhausted event list means the goroutine is still
blocked in `ReadMessage`. -/
def recvHandler (deser : Nat → Option WampMessage) (closedSet : Bool) :
    List ReadEvent → List PeerAction
  | [] => []
  | ReadEvent.readErr :: _ =>
    (if closedSet then [] else [PeerAction.enqueueSentinel, PeerAction.awaitWriterDone]) ++
      [PeerAction.closeConn, PeerAction.closeRd]
  | ReadEvent.closeFrame :: _ => [PeerAction.closeConn, PeerAction.closeRd]
  | ReadEvent.dataFrame b :: rest =>
    match deser b with
    | none => PeerAction.logErr :: recvHandler deser closedSet rest
    | some m => PeerAction.deliver m :: recvHandler deser closedSet rest

/-- `Close()`: enqueues the `nil` sentinel, awaits `writerDone`, sets the
Explicit-Close Signal, best-effort sends the close control frame, closes
the connection.  `queued` is the content of `w.wr` at the moment of the
call; because `Close` blocks on `<-w.writerDone`, every action of the
outbound pump precedes the remainder of `Close` in real time, so the
concatenation below is the exact global order of the modelled actions. -/
def closePeer (ser : WampMessage → Option Nat) (wOk : Nat → Bool)
    (queued : List QItem) : List PeerAction :=
  PeerAction.enqueueSentinel :: sendHandler ser wOk (queued ++ [none]) ++
    [PeerAction.awaitWriterDone, PeerAction.closeSignal, PeerAction.writeCloseFrame,
      PeerAction.closeConn]

/-- The remote-disconnect teardown: `recvHandler` hits a read error with
the Explicit-Close Signal unset, enqueues the sentinel, awaits
`writerDone` (the outbound pump drains `queued ++ [none]`), then runs its
deferred `conn.Close()` and `close(w.rd)`. -/
def disconnectTeardown (ser : WampMessage → Option Nat) (wOk : Nat → Bool)
    (queued : List QItem) : List PeerAction :=
  PeerAction.enqueueSentinel :: sendHandler ser wOk (queued ++ [none]) ++
    [PeerAction.awaitWriterDone, PeerAction.closeConn, PeerAction.closeRd]

/-- The complete explicit-close execution: `Close()` runs to completion;
closing the connection makes the blocked `ReadMessage` in `recvHandler`
fail, and the Explicit-Close Signal is already set, so `recvHandler`
takes its silent path — whose deferred `w.conn.Close()` still runs. -/
def explicitCloseExec (ser : WampMessage → Option Nat) (wOk : Nat → Bool)
    (queued : List QItem) (deser : Nat → Option WampMessage) : List PeerAction :=
  closePeer ser wOk queued ++ recvHandler deser true [ReadEvent.readErr]

/-- `TrySend`: non-blocking enqueue, then a wait bounded by the send
timeout.  On an undrained peer (no consumer removes items during the
wait) the queue is still full when the timeout fires, so the fallback
also fails; the message is then neither queued nor sent.  Returns the new
queue content and whether the enqueue succeeded (`false` = the
backpressure error `errors.New("blocked")`). -/
def trySend (cap : Nat) (q : List QItem) (m : QItem) : List QItem × Bool :=
  if q.length < cap then (q ++ [m], true) else (q, false)

/-- Folds `trySend` over a list of messages, returning the final queue
and the per-call results in order. -/
def trySendAll (cap : Nat) (q : List QItem) : List WampMessage → List QItem × List Bool
  | [] => (q, [])
  | m :: rest =>
    let r := trySend cap q (some m)
    let tail := trySendAll cap r.1 rest
    (tail.1, r.2 :: tail.2)

/-- `Send`: unconditional blocking enqueue on `w.wr`. -/
def send (q : List QItem) (m : QItem) : List QItem := q ++ [m]

/-- Which outbound pump `NewWebsocketPeer` starts. -/
inductive PumpChoice where
  | plain
  | keepAliveEvery (interval : Nat)
deriving DecidableEq, Repr

/-- The pump-selection and warning logic of `NewWebsocketPeer` as a
function of the `keepAlive` argument (milliseconds): returns whether the
short-keepalive warning is logged, and which send handler is started. -/
def newWebsocketPeerPump (keepAlive : Nat) : Bool × PumpChoice :=
  if keepAlive ≠ 0 then
    (decide (keepAlive < oneSecond), PumpChoice.keepAliveEvery keepAlive)
  else
    (false, PumpChoice.plain)

/-- Events multiplexed by `sendHandlerKeepAlive`: a dequeued channel
item, a ticker tick, or the pong handler firing. -/
inductive KAEvent where
  | item (q : QItem)
  | tick
  | pong
deriving DecidableEq, Repr

/-- One iteration of `sendHandlerKeepAlive`.  `pp` is the `pendingPongs`
atomic counter; `pingOk` models whether the ping write succeeds.  Returns
the emitted actions and `some pp` to continue with the new counter, or
`none` when the goroutine returns (after its deferred
`close(w.writerDone)`). -/
def kaStep (ser : WampMessage → Option Nat) (wOk : Nat → Bool) (pingOk : Bool)
    (pp : Nat) : KAEvent → List PeerAction × Option Nat
  | KAEvent.pong => ([], some 0)
  | KAEvent.item none => ([PeerAction.writerDone], none)
  | KAEvent.item (some m) =>
    match ser m with
    | none => ([PeerAction.logErr], some pp)
    | some b =>
      if wOk b then ([PeerAction.write b], some pp)
      else ((if m.goodbyeAck then [] else [PeerAction.logErr]) ++ [PeerAction.writerDone], none)
  | KAEvent.tick =>
    if pp ≥ 2 then ([PeerAction.logErr, PeerAction.closeConn, PeerAction.writerDone], none)
    else if pingOk then ([PeerAction.ping], some (pp + 1))
    else ([PeerAction.writerDone], none)

/-- Runs `sendHandlerKeepAlive` over a sequence of events from counter
state `pp`. -/
def kaRun (ser : WampMessage → Option Nat) (wOk : Nat → Bool) (pingOk : Bool)
    (pp : Nat) : List KAEvent → List PeerAction
  | [] => []
  | e :: rest =>
    match kaStep ser wOk pingOk pp e with
    | (as, none) => as
    | (as, some pp2) => as ++ kaRun ser wOk pingOk pp2 rest

/-- The configurations of the `websocket.Dialer` that
`ConnectWebsocketPeerContext` derives from an optional
`WebsocketConfig`. -/
structure WebsocketConfig where
  enableCompression : Bool
  proxyURL : Option String
  hasJar : Bool
deriving DecidableEq, Repr

/-- The dialer fields set by the config-handling block. -/
structure DialerSettings where
  enableCompression : Bool
  proxyFromConfig : Bool
  hasJar : Bool
deriving DecidableEq, Repr

/-- The `if wsCfg != nil { ... }` block of `ConnectWebsocketPeerContext`:
the proxy and cookie jar are taken from the config, and
`dialer.EnableCompression` is assigned the literal `true` (the
`wsCfg.EnableCompression` field is never read). -/
def configureDialer (cfg : Option WebsocketConfig) : DialerSettings :=
  match cfg with
  | none => { enableCompression := false, proxyFromConfig := false, hasJar := false }
  | some c =>
    { enableCompression := true
      proxyFromConfig := c.proxyURL.isSome
      hasJar := c.hasJar }

/-- The payloads written by a trace, in order. -/
def writesOf (t : List PeerAction) : List Nat :=
  t.filterMap fun a => match a with | PeerAction.write b => some b | _ => none

/-- The number of `conn.Close()` calls in a trace. -/
def countCloseConn (t : List PeerAction) : Nat :=
  t.countP fun a => a = PeerAction.closeConn

/-- The number of sentinel enqueues in a trace. -/
def countEnqueueSentinel (t : List PeerAction) : Nat :=
  t.countP fun a => a = PeerAction.enqueueSentinel

/-- Ticker ticks occur at absolute times `I, 2*I, 3*I, ...`.  If the last
keepalive response arrives at absolute time `t0` (so `pendingPongs` is 0
from `t0` on) and the remote stays silent afterwards, the ticks strictly
after `t0` are at `(t0 / I + 1) * I, (t0 / I + 2) * I, ...`, and by the
behaviour of `kaRun` the connection is force-closed on the third of them.
This is the elapsed time from `t0` to that close. -/
def keepAliveCloseElapsed (I t0 : Nat) : Nat := (t0 / I + 3) * I - t0

/-! ## Helper lemmas about the pump traces -/

/-- When every message encodes and every write succeeds, `sendHandler`
writes the queued messages in enqueue order, then exits at the first
sentinel, ignoring anything queued after it. -/
theorem sendHandler_drain (enc : WampMessage → Nat)
    (msgs : List WampMessage) (rest : List QItem) :
    sendHandler (fun m => some (enc m)) (fun _ => true) (msgs.map some ++ none :: rest) =
      msgs.map (fun m => PeerAction.write (enc m)) ++ [PeerAction.writerDone] := by
  induction msgs with
  | nil => simp [sendHandler]
  | cons m ms ih => simp [sendHandler, ih]

/-- Whatever the serializer and connection do, once a sentinel is in the
queue the outbound pump terminates, and its final action raises the
Writer-Done signal: awaiting `writerDone` cannot deadlock. -/
theorem sendHandler_exits (ser : WampMessage → Option Nat) (wOk : Nat → Bool)
    (q : List QItem) (h : none ∈ q) :
    ∃ pre, sendHandler ser wOk q = pre ++ [PeerAction.writerDone] := by
  induction q with
  | nil => cases h
  | cons it rest ih =>
    cases it with
    | none => exact ⟨[], rfl⟩
    | some m =>
      have hr : none ∈ rest := by
        rcases List.mem_cons.mp h with h1 | h1
        · cases h1
        · exact h1
      obtain ⟨pre, hpre⟩ := ih hr
      cases hs : ser m with
      | none => exact ⟨PeerAction.logErr :: pre, by simp [sendHandler, hs, hpre]⟩
      | some b =>
        cases hw : wOk b with
        | true => exact ⟨PeerAction.write b :: pre, by simp [sendHandler, hs, hw, hpre]⟩
        | false =>
          exact ⟨if m.goodbyeAck then [] else [PeerAction.logErr],
            by simp [sendHandler, hs, hw]⟩

/-- Every action of the plain outbound pump is a write, an error log, or
the Writer-Done raise: it never closes anything, never sends control
frames, and never enqueues the sentinel. -/
theorem sendHandler_actions (ser : WampMessage → Option Nat) (wOk : Nat → Bool)
    (q : List QItem) :
    ∀ a ∈ sendHandler ser wOk q,
      a = PeerAction.writerDone ∨ a = PeerAction.logErr ∨ ∃ b, a = PeerAction.write b := by
  induction q with
  | nil => simp [sendHandler]
  | cons it rest ih =>
    cases it with
    | none => simp [sendHandler]
    | some m =>
      intro a ha
      cases hs : ser m with
      | none =>
        rw [sendHandler, hs] at ha
        rcases List.mem_cons.mp ha with h1 | h1
        · exact Or.inr (Or.inl h1)
        · exact ih a h1
      | some b =>
        cases hw : wOk b with
        | true =>
          simp only [sendHandler, hs, hw, if_true] at ha
          rcases List.mem_cons.mp ha with h1 | h1
          · exact Or.inr (Or.inr ⟨b, h1⟩)
          · exact ih a h1
        | false =>
          simp only [sendHandler, hs, hw, Bool.false_eq_true, if_false] at ha
          rcases List.mem_append.mp ha with h1 | h1
          · cases hg : m.goodbyeAck <;> rw [hg] at h1 <;> simp at h1
            exact Or.inr (Or.inl h1)
          · simp at h1
            exact Or.inl h1

/-- The plain outbound pump never calls `conn.Close()`. -/
theorem sendHandler_countCloseConn (ser : WampMessage → Option Nat) (wOk : Nat → Bool)
    (q : List QItem) : countCloseConn (sendHandler ser wOk q) = 0 := by
  rw [countCloseConn, List.countP_eq_zero]
  intro a ha
  rcases sendHandler_actions ser wOk q a ha with h | h | ⟨b, h⟩ <;> simp [h]

/-- The plain outbound pump never enqueues the sentinel. -/
theorem sendHandler_countSentinel (ser : WampMessage → Option Nat) (wOk : Nat → Bool)
    (q : List QItem) : countEnqueueSentinel (sendHandler ser wOk q) = 0 := by
  rw [countEnqueueSentinel, List.countP_eq_zero]
  intro a ha
  rcases sendHandler_actions ser wOk q a ha with h | h | ⟨b, h⟩ <;> simp [h]

/-- When the serializer succeeds on every queued message and all writes
succeed, the plain pump writes exactly the queued messages in order (and
keeps running: the queue holds no sentinel). -/
theorem sendHandler_writes_all (ser : WampMessage → Option Nat)
    (enc : WampMessage → Nat) (msgs : List WampMessage)
    (h : ∀ m ∈ msgs, ser m = some (enc m)) :
    sendHandler ser (fun _ => true) (msgs.map some) =
      msgs.map (fun m => PeerAction.write (enc m)) := by
  induction msgs with
  | nil => simp [sendHandler]
  | cons m rest ih =>
    have h1 : ser m = some (enc m) := h m (List.mem_cons_self m rest)
    have h2 : ∀ x ∈ rest, ser x = some (enc x) := fun x hx => h x (List.mem_cons_of_mem m hx)
    simp [sendHandler, h1, ih h2]

/-- A single encode failure makes the plain pump log and drop only that
message: everything before and after it is still written, in order. -/
theorem sendHandler_skips_bad (ser : WampMessage → Option Nat)
    (enc : WampMessage → Nat) (x : WampMessage) (as bs : List WampMessage)
    (ha : ∀ m ∈ as, ser m = some (enc m)) (hb : ∀ m ∈ bs, ser m = some (enc m))
    (hx : ser x = none) :
    sendHandler ser (fun _ => true) ((as ++ x :: bs).map some) =
      as.map (fun m => PeerAction.write (enc m)) ++
        PeerAction.logErr :: bs.map (fun m => PeerAction.write (enc m)) := by
  induction as with
  | nil => simp [sendHandler, hx, sendHandler_writes_all ser enc bs hb]
  | cons a rest ih =>
    have h1 : ser a = some (enc a) := ha a (List.mem_cons_self a rest)
    have h2 : ∀ m ∈ rest, ser m = some (enc m) := fun m hm => ha m (List.mem_cons_of_mem a hm)
    have ih2 := ih h2
    simp only [List.map_append, List.map_cons] at ih2
    simp [sendHandler, h1, ih2]

/-- Every action of one keepalive-pump iteration is a write, a log, a
ping, a `conn.Close()` or the Writer-Done raise. -/
theorem kaStep_actions (ser : WampMessage → Option Nat) (wOk : Nat → Bool)
    (pingOk : Bool) (pp : Nat) (e : KAEvent) :
    ∀ a ∈ (kaStep ser wOk pingOk pp e).1,
      a = PeerAction.writerDone ∨ a = PeerAction.logErr ∨ (∃ b, a = PeerAction.write b) ∨
        a = PeerAction.ping ∨ a = PeerAction.closeConn := by
  cases e with
  | pong => simp [kaStep]
  | tick =>
    by_cases h2 : 2 ≤ pp
    · simp only [kaStep, if_pos h2]
      intro a ha
      rcases List.mem_cons.mp ha with h | h
      · exact Or.inr (Or.inl h)
      rcases List.mem_cons.mp h with h | h
      · exact Or.inr (Or.inr (Or.inr (Or.inr h)))
      · simp at h
        exact Or.inl h
    · cases hp : pingOk <;> simp [kaStep, h2, hp]
  | item it =>
    cases it with
    | none => simp [kaStep]
    | some m =>
      cases hs : ser m with
      | none => simp [kaStep, hs]
      | some b =>
        cases hw : wOk b with
        | true => simp [kaStep, hs, hw]
        | false => cases hg : m.goodbyeAck <;> simp [kaStep, hs, hw, hg]

/-- Every action of the keepalive pump is a write, a log, a ping, a
`conn.Close()` or the Writer-Done raise: in particular it never enqueues
the sentinel and never closes a channel. -/
theorem kaRun_actions (ser : WampMessage → Option Nat) (wOk : Nat → Bool)
    (pingOk : Bool) (evs : List KAEvent) :
    ∀ pp, ∀ a ∈ kaRun ser wOk pingOk pp evs,
      a = PeerAction.writerDone ∨ a = PeerAction.logErr ∨ (∃ b, a = PeerAction.write b) ∨
        a = PeerAction.ping ∨ a = PeerAction.closeConn := by
  induction evs with
  | nil => intro pp a ha; simp [kaRun] at ha
  | cons e rest ih =>
    intro pp a ha
    rw [kaRun] at ha
    cases hstep : kaStep ser wOk pingOk pp e with
    | mk as s =>
      rw [hstep] at ha
      cases s with
      | none =>
        exact kaStep_actions ser wOk pingOk pp e a (by rw [hstep]; exact ha)
      | some pp2 =>
        dsimp only at ha
        rcases List.mem_append.mp ha with h1 | h1
        · exact kaStep_actions ser wOk pingOk pp e a (by rw [hstep]; exact h1)
        · exact ih pp2 a h1

/-- The keepalive pump never enqueues the sentinel. -/
theorem kaRun_countSentinel (ser : WampMessage → Option Nat) (wOk : Nat → Bool)
    (pingOk : Bool) (pp : Nat) (evs : List KAEvent) :
    countEnqueueSentinel (kaRun ser wOk pingOk pp evs) = 0 := by
  rw [countEnqueueSentinel, List.countP_eq_zero]
  intro a ha
  rcases kaRun_actions ser wOk pingOk evs pp a ha with h | h | ⟨b, h⟩ | h | h <;> simp [h]

/-- Every action of the inbound pump: it never writes data frames, never
sends the close control frame, and never closes the outbound queue. -/
theorem recvHandler_actions (deser : Nat → Option WampMessage) (c : Bool)
    (evs : List ReadEvent) :
    ∀ a ∈ recvHandler deser c evs,
      a = PeerAction.enqueueSentinel ∨ a = PeerAction.awaitWriterDone ∨
        a = PeerAction.closeConn ∨ a = PeerAction.closeRd ∨ a = PeerAction.logErr ∨
        ∃ m, a = PeerAction.deliver m := by
  induction evs with
  | nil => simp [recvHandler]
  | cons e rest ih =>
    cases e with
    | readErr =>
      cases c with
      | true =>
        intro a ha
        simp [recvHandler] at ha
        rcases ha with h | h <;> simp [h]
      | false =>
        intro a ha
        simp [recvHandler] at ha
        rcases ha with h | h | h | h <;> simp [h]
    | closeFrame =>
      intro a ha
      simp [recvHandler] at ha
      rcases ha with h | h <;> simp [h]
    | dataFrame b =>
      intro a ha
      cases hd : deser b with
      | none =>
        simp only [recvHandler, hd] at ha
        rcases List.mem_cons.mp ha with h | h
        · simp [h]
        · exact ih a h
      | some m =>
        simp only [recvHandler, hd] at ha
        rcases List.mem_cons.mp ha with h | h
        · exact Or.inr (Or.inr (Or.inr (Or.inr (Or.inr ⟨m, h⟩))))
        · exact ih a h

/-- The inbound pump enqueues the sentinel at most once per execution. -/
theorem recvHandler_sentinel_le_one (deser : Nat → Option WampMessage) (c : Bool)
    (evs : List ReadEvent) :
    countEnqueueSentinel (recvHandler deser c evs) ≤ 1 := by
  induction evs with
  | nil => simp [recvHandler, countEnqueueSentinel]
  | cons e rest ih =>
    cases e with
    | readErr => cases c <;> simp [recvHandler, countEnqueueSentinel, List.countP_cons]
    | closeFrame => simp [recvHandler, countEnqueueSentinel, List.countP_cons]
    | dataFrame b =>
      cases hd : deser b with
      | none =>
        simpa [recvHandler, hd, countEnqueueSentinel, List.countP_cons] using ih
      | some m =>
        simpa [recvHandler, hd, countEnqueueSentinel, List.countP_cons] using ih

/-- When the deserializer succeeds on every frame, the inbound pump
delivers the decoded messages in read order and keeps running. -/
theorem recvHandler_delivers (deser : Nat → Option WampMessage) (dec : Nat → WampMessage)
    (c : Bool) (frames : List Nat) (h : ∀ b ∈ frames, deser b = some (dec b)) :
    recvHandler deser c (frames.map ReadEvent.dataFrame) =
      frames.map (fun b => PeerAction.deliver (dec b)) := by
  induction frames with
  | nil => simp [recvHandler]
  | cons b rest ih =>
    have h1 : deser b = some (dec b) := h b (List.mem_cons_self b rest)
    have h2 : ∀ x ∈ rest, deser x = some (dec x) := fun x hx => h x (List.mem_cons_of_mem b hx)
    simp [recvHandler, h1, ih h2]

/-- A single decode failure makes the inbound pump log and skip only
that frame: every other message is delivered, in order. -/
theorem recvHandler_skips_bad (deser : Nat → Option WampMessage) (dec : Nat → WampMessage)
    (c : Bool) (xb : Nat) (as bs : List Nat)
    (ha : ∀ b ∈ as, deser b = some (dec b)) (hb : ∀ b ∈ bs, deser b = some (dec b))
    (hx : deser xb = none) :
    recvHandler deser c ((as ++ xb :: bs).map ReadEvent.dataFrame) =
      as.map (fun b => PeerAction.deliver (dec b)) ++
        PeerAction.logErr :: bs.map (fun b => PeerAction.deliver (dec b)) := by
  induction as with
  | nil => simp [recvHandler, hx, recvHandler_delivers deser dec c bs hb]
  | cons a rest ih =>
    have h1 : deser a = some (dec a) := ha a (List.mem_cons_self a rest)
    have h2 : ∀ b ∈ rest, deser b = some (dec b) := fun b hm => ha b (List.mem_cons_of_mem a hm)
    have ih2 := ih h2
    simp only [List.map_append, List.map_cons] at ih2
    simp [recvHandler, h1, ih2]

/-- While the queue still has room, every `trySend` succeeds and appends
in order. -/
theorem trySendAll_fits (cap : Nat) (q : List QItem) (msgs : List WampMessage)
    (h : q.length + msgs.length ≤ cap) :
    trySendAll cap q msgs = (q ++ msgs.map some, List.replicate msgs.length true) := by
  induction msgs generalizing q with
  | nil => simp [trySendAll]
  | cons m rest ih =>
    have hlt : q.length < cap := by
      simp only [List.length_cons] at h
      omega
    have h2 : (q ++ [some m]).length + rest.length ≤ cap := by
      simp only [List.length_append, List.length_cons, List.length_nil]
      simp only [List.length_cons] at h
      omega
    simp [trySendAll, trySend, hlt, ih _ h2, List.replicate_succ]

/-- `trySendAll` splits over list append. -/
theorem trySendAll_append (cap : Nat) (q : List QItem) (as bs : List WampMessage) :
    trySendAll cap q (as ++ bs) =
      ((trySendAll cap (trySendAll cap q as).1 bs).1,
        (trySendAll cap q as).2 ++ (trySendAll cap (trySendAll cap q as).1 bs).2) := by
  induction as generalizing q with
  | nil => simp [trySendAll]
  | cons a rest ih => simp [trySendAll, ih]

/-- `keepAliveCloseElapsed I t0` is between `2*I` (exclusive whenever
`t0` is not itself a tick time) and `3*I` (inclusive, attained when the
last response coincides with a tick or with connection start). -/
theorem keepAliveCloseElapsed_bounds (I t0 : Nat) (hI : 0 < I) :
    2 * I ≤ keepAliveCloseElapsed I t0 ∧ keepAliveCloseElapsed I t0 ≤ 3 * I := by
  have h1 : I * (t0 / I) + t0 % I = t0 := Nat.div_add_mod t0 I
  have h2 : t0 % I < I := Nat.mod_lt t0 hI
  unfold keepAliveCloseElapsed
  have e : (t0 / I + 3) * I = I * (t0 / I) + 3 * I := by ring
  rw [e]
  generalize I * (t0 / I) = x at h1
  generalize t0 % I = r at h1 h2
  omega

/-- Every payload the plain pump writes is the successful serialization
of a real (non-nil) message from the queue: the sentinel itself is never
serialized or written. -/
theorem sendHandler_write_src (ser : WampMessage → Option Nat) (wOk : Nat → Bool)
    (q : List QItem) (b : Nat) (h : PeerAction.write b ∈ sendHandler ser wOk q) :
    ∃ m, some m ∈ q ∧ ser m = some b := by
  induction q with
  | nil => simp [sendHandler] at h
  | cons it rest ih =>
    cases it with
    | none => simp [sendHandler] at h
    | some m =>
      cases hs : ser m with
      | none =>
        simp only [sendHandler, hs] at h
        rcases List.mem_cons.mp h with h1 | h1
        · cases h1
        · obtain ⟨m2, hmem, hser⟩ := ih h1
          exact ⟨m2, List.mem_cons_of_mem _ hmem, hser⟩
      | some b2 =>
        cases hw : wOk b2 with
        | true =>
          simp only [sendHandler, hs, hw, if_true] at h
          rcases List.mem_cons.mp h with h1 | h1
          · cases h1
            exact ⟨m, List.mem_cons_self _ _, hs⟩
          · obtain ⟨m2, hmem, hser⟩ := ih h1
            exact ⟨m2, List.mem_cons_of_mem _ hmem, hser⟩
        | false =>
          simp only [sendHandler, hs, hw, Bool.false_eq_true, if_false] at h
          rcases List.mem_append.mp h with h1 | h1
          · cases hg : m.goodbyeAck <;> rw [hg] at h1 <;> simp at h1
          · simp at h1

/-- The pump reacts to a sentinel identically whether anything is queued
behind it or not: it exits at the first sentinel and ignores the rest. -/
theorem sendHandler_stops_at_sentinel (ser : WampMessage → Option Nat) (wOk : Nat → Bool)
    (q rest : List QItem) :
    sendHandler ser wOk (q ++ none :: rest) = sendHandler ser wOk (q ++ [none]) := by
  induction q with
  | nil => rfl
  | cons it q2 ih =>
    cases it with
    | none => rfl
    | some m =>
      cases hs : ser m with
      | none => simp [sendHandler, hs, ih]
      | some b =>
        cases hw : wOk b with
        | true => simp [sendHandler, hs, hw, ih]
        | false => simp [sendHandler, hs, hw]

/-! ## The claims -/

/-- C1: `Close()` first enqueues the shutdown sentinel and awaits the
Writer-Done signal, so when the K queued messages all encode and write
successfully, every one of them reaches the connection in enqueue order
before the close control frame is sent; and for arbitrary serializer and
connection behaviour the close control frame comes strictly after the
Outbound Pump's exit (its final action, the Writer-Done raise). -/
theorem close_drains_before_close_frame :
    (∀ (enc : WampMessage → Nat) (msgs : List WampMessage),
      closePeer (fun m => some (enc m)) (fun _ => true) (msgs.map some) =
        PeerAction.enqueueSentinel :: msgs.map (fun m => PeerAction.write (enc m)) ++
          [PeerAction.writerDone, PeerAction.awaitWriterDone, PeerAction.closeSignal,
            PeerAction.writeCloseFrame, PeerAction.closeConn]) ∧
    (∀ (ser : WampMessage → Option Nat) (wOk : Nat → Bool) (queued : List QItem),
      ∃ pre, closePeer ser wOk queued =
          PeerAction.enqueueSentinel :: (pre ++ [PeerAction.writerDone]) ++
            [PeerAction.awaitWriterDone, PeerAction.closeSignal, PeerAction.writeCloseFrame,
              PeerAction.closeConn] ∧
        PeerAction.writeCloseFrame ∉ pre ++ [PeerAction.writerDone]) := by
  constructor
  · intro enc msgs
    rw [closePeer, sendHandler_drain]
    simp
  · intro ser wOk queued
    obtain ⟨pre, hpre⟩ := sendHandler_exits ser wOk (queued ++ [none]) (by simp)
    refine ⟨pre, by rw [closePeer, hpre], ?_⟩
    intro hmem
    rcases List.mem_append.mp hmem with h | h
    · have hin : PeerAction.writeCloseFrame ∈ sendHandler ser wOk (queued ++ [none]) := by
        rw [hpre]
        exact List.mem_append.mpr (Or.inl h)
      rcases sendHandler_actions _ _ _ _ hin with h1 | h1 | ⟨b, h1⟩ <;> cases h1
    · simp at h

/-- C5: on a read failure the Inbound Pump exits silently (enqueuing
nothing) when the Explicit-Close Signal is set; otherwise it enqueues
the sentinel and awaits Writer-Done, so the queued outbound messages are
written before the teardown completes, and the awaited signal is always
raised (no deadlock). -/
theorem recv_read_error_paths :
    (∀ (deser : Nat → Option WampMessage) (rest : List ReadEvent),
      recvHandler deser true (ReadEvent.readErr :: rest) =
          [PeerAction.closeConn, PeerAction.closeRd] ∧
        countEnqueueSentinel (recvHandler deser true (ReadEvent.readErr :: rest)) = 0) ∧
    (∀ (deser : Nat → Option WampMessage) (rest : List ReadEvent),
      recvHandler deser false (ReadEvent.readErr :: rest) =
        [PeerAction.enqueueSentinel, PeerAction.awaitWriterDone,
          PeerAction.closeConn, PeerAction.closeRd]) ∧
    (∀ (enc : WampMessage → Nat) (msgs : List WampMessage),
      disconnectTeardown (fun m => some (enc m)) (fun _ => true) (msgs.map some) =
        PeerAction.enqueueSentinel :: msgs.map (fun m => PeerAction.write (enc m)) ++
          [PeerAction.writerDone, PeerAction.awaitWriterDone,
            PeerAction.closeConn, PeerAction.closeRd]) ∧
    (∀ (ser : WampMessage → Option Nat) (wOk : Nat → Bool) (queued : List QItem),
      ∃ pre, sendHandler ser wOk (queued ++ [none]) = pre ++ [PeerAction.writerDone]) := by
  refine ⟨fun deser rest => ⟨rfl, rfl⟩, fun deser rest => rfl, fun enc msgs => ?_,
    fun ser wOk queued => sendHandler_exits ser wOk (queued ++ [none]) (by simp)⟩
  rw [disconnectTeardown, sendHandler_drain]
  simp

/-- C2 counterexample: in the explicit-close execution (empty queue, any
codec) `conn.Close()` is invoked twice — once by step 4 of `Close()` and
once by `recvHandler`'s deferred `w.conn.Close()` — so the connection is
not closed exactly once. -/
theorem conn_not_closed_exactly_once :
    countCloseConn (explicitCloseExec (fun m => some m.mid) (fun _ => true) []
        (fun _ => none)) = 2 ∧
    countCloseConn (explicitCloseExec (fun m => some m.mid) (fun _ => true) []
        (fun _ => none)) ≠ 1 := by
  constructor <;> decide

/-- C2 amended: across a peer lifetime `conn.Close()` is invoked at
least once, but both teardown paths converge through Writer-Done rather
than through a unique close: the explicit-close execution closes the
connection exactly twice (Close step 4 plus the Inbound Pump's deferred
close), while the remote-disconnect teardown closes it exactly once. -/
theorem conn_close_counts :
    (∀ (ser : WampMessage → Option Nat) (wOk : Nat → Bool) (queued : List QItem)
        (deser : Nat → Option WampMessage),
      countCloseConn (explicitCloseExec ser wOk queued deser) = 2) ∧
    (∀ (ser : WampMessage → Option Nat) (wOk : Nat → Bool) (queued : List QItem),
      countCloseConn (disconnectTeardown ser wOk queued) = 1) := by
  constructor
  · intro ser wOk queued deser
    have hs := sendHandler_countCloseConn ser wOk (queued ++ [none])
    rw [countCloseConn] at hs ⊢
    simp [explicitCloseExec, closePeer, recvHandler, List.countP_append, List.countP_cons, hs]
  · intro ser wOk queued
    have hs := sendHandler_countCloseConn ser wOk (queued ++ [none])
    rw [countCloseConn] at hs ⊢
    simp [disconnectTeardown, List.countP_append, List.countP_cons, hs]

/-- C3 counterexample: with interval `I = 1` and total silence from
connection start (last sign of life at `t0 = 0`), the keepalive pump
pings on the first two ticks and force-closes only on the third, so the
elapsed time is exactly `3 * I` — not less than `3 * I` as claimed. -/
theorem keepalive_not_closed_before_three_intervals :
    PeerAction.closeConn ∉ kaRun (fun m => some m.mid) (fun _ => true) true 0
        (List.replicate 2 KAEvent.tick) ∧
    PeerAction.closeConn ∈ kaRun (fun m => some m.mid) (fun _ => true) true 0
        (List.replicate 3 KAEvent.tick) ∧
    keepAliveCloseElapsed 1 0 = 3 ∧ ¬ keepAliveCloseElapsed 1 0 < 3 * 1 := by
  refine ⟨by decide, by decide, by decide, by decide⟩

/-- C3 amended: on each tick the keepalive pump force-closes the
connection exactly when the Missed-Pong Counter is at least 2 and
otherwise pings and increments it, and any pong resets the counter to 0;
with a silent remote the close happens on the third tick after the last
response, hence after at least `2*I` and at most `3*I` (the upper bound
is attained, e.g. when the silence starts at a tick boundary). -/
theorem keepalive_close_behavior :
    (∀ (ser : WampMessage → Option Nat) (wOk : Nat → Bool) (pingOk : Bool) (pp : Nat),
      2 ≤ pp →
      kaStep ser wOk pingOk pp KAEvent.tick =
        ([PeerAction.logErr, PeerAction.closeConn, PeerAction.writerDone], none)) ∧
    (∀ (ser : WampMessage → Option Nat) (wOk : Nat → Bool) (pp : Nat),
      pp < 2 →
      kaStep ser wOk true pp KAEvent.tick = ([PeerAction.ping], some (pp + 1))) ∧
    (∀ (ser : WampMessage → Option Nat) (wOk : Nat → Bool) (pingOk : Bool) (pp : Nat),
      kaStep ser wOk pingOk pp KAEvent.pong = ([], some 0)) ∧
    (∀ (ser : WampMessage → Option Nat) (wOk : Nat → Bool) (n : Nat),
      n ≤ 2 →
      PeerAction.closeConn ∉ kaRun ser wOk true 0 (List.replicate n KAEvent.tick)) ∧
    (∀ (ser : WampMessage → Option Nat) (wOk : Nat → Bool),
      kaRun ser wOk true 0 (List.replicate 3 KAEvent.tick) =
        [PeerAction.ping, PeerAction.ping, PeerAction.logErr, PeerAction.closeConn,
          PeerAction.writerDone]) ∧
    (∀ I t0 : Nat, 0 < I →
      2 * I ≤ keepAliveCloseElapsed I t0 ∧ keepAliveCloseElapsed I t0 ≤ 3 * I) := by
  refine ⟨?_, ?_, ?_, ?_, ?_, fun I t0 hI => keepAliveCloseElapsed_bounds I t0 hI⟩
  · intro ser wOk pingOk pp h
    simp [kaStep, h]
  · intro ser wOk pp h
    have h2 : ¬ 2 ≤ pp := by omega
    simp [kaStep, h2]
  · intro ser wOk pingOk pp
    rfl
  · intro ser wOk n hn
    interval_cases n <;> simp [kaRun, kaStep]
  · intro ser wOk
    simp [kaRun, kaStep]

/-- C3 witness: the amended keepalive facts at concrete inputs. -/
theorem keepalive_close_behavior_witness :
    kaStep (fun m => some m.mid) (fun _ => true) true 2 KAEvent.tick =
        ([PeerAction.logErr, PeerAction.closeConn, PeerAction.writerDone], none) ∧
    kaStep (fun m => some m.mid) (fun _ => true) true 0 KAEvent.tick =
        ([PeerAction.ping], some 1) ∧
    PeerAction.closeConn ∉ kaRun (fun m => some m.mid) (fun _ => true) true 0
        (List.replicate 2 KAEvent.tick) ∧
    (2 * 5 ≤ keepAliveCloseElapsed 5 7 ∧ keepAliveCloseElapsed 5 7 ≤ 3 * 5) :=
  ⟨keepalive_close_behavior.1 _ _ true 2 (by decide),
    keepalive_close_behavior.2.1 _ _ 0 (by decide),
    keepalive_close_behavior.2.2.2.1 _ _ 2 (by decide),
    keepalive_close_behavior.2.2.2.2.2 5 7 (by decide)⟩

/-- C4: from an empty queue of capacity `outQueueSize` on an undrained
peer, the first `outQueueSize` `TrySend` calls succeed and the next one
fails with the backpressure error, leaving the failed message neither
queued nor sent: the final queue holds exactly the first `outQueueSize`
messages. -/
theorem trySend_backpressure (msgs : List WampMessage)
    (h : msgs.length = outQueueSize + 1) :
    (trySendAll outQueueSize [] msgs).2 =
        List.replicate outQueueSize true ++ [false] ∧
    (trySendAll outQueueSize [] msgs).1 = (msgs.take outQueueSize).map some := by
  have hlen1 : (msgs.drop outQueueSize).length = 1 := by
    rw [List.length_drop, h]
    omega
  obtain ⟨x, hx⟩ := List.length_eq_one.mp hlen1
  have htake : (msgs.take outQueueSize).length = outQueueSize := by
    rw [List.length_take, h]
    omega
  obtain ⟨t, ht, hm⟩ : ∃ t : List WampMessage, t.length = outQueueSize ∧ msgs = t ++ [x] := by
    refine ⟨msgs.take outQueueSize, htake, ?_⟩
    rw [← hx]
    exact (List.take_append_drop _ _).symm
  subst hm
  have htk : (t ++ [x]).take outQueueSize = t := by
    rw [← ht]
    exact List.take_left t [x]
  have hfits : ([] : List QItem).length + t.length ≤ outQueueSize := by
    simp [ht]
  have hfull : ¬ (([] ++ t.map some : List QItem).length < outQueueSize) := by
    simp [ht]
  rw [htk, trySendAll_append, trySendAll_fits outQueueSize [] t hfits]
  simp only [List.nil_append]
  simp [trySendAll, trySend, hfull, ht]

/-- C4 witness: capacity-16 queue, 17 concrete `TrySend` calls. -/
theorem trySend_backpressure_witness :
    (trySendAll outQueueSize []
        ((List.range (outQueueSize + 1)).map (fun i => WampMessage.mk i false))).2 =
      List.replicate outQueueSize true ++ [false] :=
  (trySend_backpressure _ (by simp)).1

/-- C6: a single codec failure never terminates the session: the
outbound pump logs and drops only the one message that fails to encode
and keeps going (no Writer-Done raise), and the inbound pump logs and
skips only the one frame that fails to decode, delivering all other
messages in order with the inbound channel still open. -/
theorem codec_failure_resilience
    (ser : WampMessage → Option Nat) (enc : WampMessage → Nat) (x : WampMessage)
    (as bs : List WampMessage)
    (ha : ∀ m ∈ as, ser m = some (enc m)) (hb : ∀ m ∈ bs, ser m = some (enc m))
    (hx : ser x = none)
    (deser : Nat → Option WampMessage) (dec : Nat → WampMessage) (c : Bool) (xb : Nat)
    (fa fb : List Nat)
    (hfa : ∀ b ∈ fa, deser b = some (dec b)) (hfb : ∀ b ∈ fb, deser b = some (dec b))
    (hxb : deser xb = none) :
    (sendHandler ser (fun _ => true) ((as ++ x :: bs).map some) =
        as.map (fun m => PeerAction.write (enc m)) ++
          PeerAction.logErr :: bs.map (fun m => PeerAction.write (enc m)) ∧
      PeerAction.writerDone ∉ sendHandler ser (fun _ => true) ((as ++ x :: bs).map some)) ∧
    (recvHandler deser c ((fa ++ xb :: fb).map ReadEvent.dataFrame) =
        fa.map (fun b => PeerAction.deliver (dec b)) ++
          PeerAction.logErr :: fb.map (fun b => PeerAction.deliver (dec b)) ∧
      PeerAction.closeRd ∉ recvHandler deser c ((fa ++ xb :: fb).map ReadEvent.dataFrame)) := by
  have hsend := sendHandler_skips_bad ser enc x as bs ha hb hx
  have hrecv := recvHandler_skips_bad deser dec c xb fa fb hfa hfb hxb
  refine ⟨⟨hsend, ?_⟩, hrecv, ?_⟩
  · rw [hsend]
    intro hmem
    rcases List.mem_append.mp hmem with h1 | h1
    · simp at h1
    · rcases List.mem_cons.mp h1 with h2 | h2
      · cases h2
      · simp at h2
  · rw [hrecv]
    intro hmem
    rcases List.mem_append.mp hmem with h1 | h1
    · simp at h1
    · rcases List.mem_cons.mp h1 with h2 | h2
      · cases h2
      · simp at h2

/-- C6 witness: one bad message among two good ones on each side. -/
theorem codec_failure_resilience_witness :
    sendHandler (fun m => if m.mid = 1 then none else some m.mid) (fun _ => true)
        ([WampMessage.mk 0 false, WampMessage.mk 1 false, WampMessage.mk 2 false].map some) =
      [PeerAction.write 0, PeerAction.logErr, PeerAction.write 2] ∧
    recvHandler (fun b => if b = 5 then none else some (WampMessage.mk b false)) false
        ([3, 5, 4].map ReadEvent.dataFrame) =
      [PeerAction.deliver (WampMessage.mk 3 false), PeerAction.logErr,
        PeerAction.deliver (WampMessage.mk 4 false)] := by
  have h := codec_failure_resilience
    (fun m => if m.mid = 1 then none else some m.mid) (fun m => m.mid)
    (WampMessage.mk 1 false) [WampMessage.mk 0 false] [WampMessage.mk 2 false]
    (by decide) (by decide) (by decide)
    (fun b => if b = 5 then none else some (WampMessage.mk b false))
    (fun b => WampMessage.mk b false) false 5 [3] [4]
    (by decide) (by decide) (by decide)
  exact ⟨h.1.1, h.2.1⟩

/-- C7: the shutdown sentinel is enqueued only by `Close()` (once) and
by the inbound pump's disconnect fallback (at most once) — at most twice
per lifetime; neither pump ever enqueues it; every written payload is
the serialization of a real (non-nil) message, so the sentinel is never
serialized or written; and no routine ever closes the outbound queue. -/
theorem sentinel_invariants :
    (∀ (ser : WampMessage → Option Nat) (wOk : Nat → Bool) (q : List QItem),
      countEnqueueSentinel (sendHandler ser wOk q) = 0) ∧
    (∀ (ser : WampMessage → Option Nat) (wOk : Nat → Bool) (pingOk : Bool) (pp : Nat)
        (evs : List KAEvent),
      countEnqueueSentinel (kaRun ser wOk pingOk pp evs) = 0) ∧
    (∀ (deser : Nat → Option WampMessage) (c : Bool) (evs : List ReadEvent),
      countEnqueueSentinel (recvHandler deser c evs) ≤ 1) ∧
    (∀ (ser : WampMessage → Option Nat) (wOk : Nat → Bool) (queued : List QItem)
        (deser : Nat → Option WampMessage) (c : Bool) (evs : List ReadEvent),
      countEnqueueSentinel (closePeer ser wOk queued ++ recvHandler deser c evs) ≤ 2) ∧
    (∀ (ser : WampMessage → Option Nat) (wOk : Nat → Bool) (q : List QItem) (b : Nat),
      PeerAction.write b ∈ sendHandler ser wOk q → ∃ m, some m ∈ q ∧ ser m = some b) ∧
    (∀ (ser : WampMessage → Option Nat) (wOk : Nat → Bool) (q : List QItem),
      PeerAction.closeQueue ∉ sendHandler ser wOk q) ∧
    (∀ (ser : WampMessage → Option Nat) (wOk : Nat → Bool) (pingOk : Bool) (pp : Nat)
        (evs : List KAEvent),
      PeerAction.closeQueue ∉ kaRun ser wOk pingOk pp evs) ∧
    (∀ (deser : Nat → Option WampMessage) (c : Bool) (evs : List ReadEvent),
      PeerAction.closeQueue ∉ recvHandler deser c evs) ∧
    (∀ (ser : WampMessage → Option Nat) (wOk : Nat → Bool) (queued : List QItem),
      PeerAction.closeQueue ∉ closePeer ser wOk queued) := by
  refine ⟨sendHandler_countSentinel, kaRun_countSentinel, recvHandler_sentinel_le_one,
    ?_, sendHandler_write_src, ?_, ?_, ?_, ?_⟩
  · intro ser wOk queued deser c evs
    have h1 := sendHandler_countSentinel ser wOk (queued ++ [none])
    have h2 := recvHandler_sentinel_le_one deser c evs
    rw [countEnqueueSentinel] at h1 h2 ⊢
    simp [closePeer, List.countP_append, List.countP_cons, h1]
    omega
  · intro ser wOk q hmem
    rcases sendHandler_actions ser wOk q _ hmem with h | h | ⟨b, h⟩ <;> cases h
  · intro ser wOk pingOk pp evs hmem
    rcases kaRun_actions ser wOk pingOk evs pp _ hmem with h | h | ⟨b, h⟩ | h | h <;> cases h
  · intro deser c evs hmem
    rcases recvHandler_actions deser c evs _ hmem with h | h | h | h | h | ⟨m, h⟩ <;> cases h
  · intro ser wOk queued hmem
    rw [closePeer] at hmem
    rcases List.mem_cons.mp hmem with h | h
    · cases h
    rcases List.mem_append.mp h with h1 | h1
    · rcases sendHandler_actions ser wOk (queued ++ [none]) _ h1 with h2 | h2 | ⟨b, h2⟩ <;>
        cases h2
    · simp at h1

/-- C8: the config-handling block of `ConnectWebsocketPeerContext` sets
`dialer.EnableCompression` to the literal `true` whenever a
`WebsocketConfig` is supplied — the `EnableCompression` field is never
read — so compression is requested even for a configuration that
disables it, contradicting the field's own documentation ("Request per
message write compression, if allowed by server"). -/
theorem compression_requested_despite_disabled :
    (configureDialer (some (WebsocketConfig.mk false none false))).enableCompression = true ∧
    (∀ c : WebsocketConfig, (configureDialer (some c)).enableCompression = true) :=
  ⟨rfl, fun _ => rfl⟩

/-- C9: any non-zero keepalive interval below one second makes
`NewWebsocketPeer` log the short-keepalive warning yet still create the
peer with the keepalive-enabled outbound pump running at exactly that
interval. -/
theorem short_keepalive_warns_not_rejected (k : Nat) (h0 : 0 < k) (h1 : k < oneSecond) :
    newWebsocketPeerPump k = (true, PumpChoice.keepAliveEvery k) := by
  have hk : k ≠ 0 := by omega
  simp [newWebsocketPeerPump, hk, h1]

/-- C9 witness: a 500 ms keepalive interval. -/
theorem short_keepalive_warns_not_rejected_witness :
    newWebsocketPeerPump 500 = (true, PumpChoice.keepAliveEvery 500) :=
  short_keepalive_warns_not_rejected 500 (by decide) (by decide)

/-- C10: `Send` (or `TrySend`) with a `nil` message enqueues the same
`nil` value `Close()` uses as shutdown sentinel, and the outbound pumps
cannot tell them apart: the plain pump drains what precedes the `nil`,
exits without serializing or writing anything for it — ignoring whatever
is queued behind it, exactly as it does for `Close()`'s sentinel — and
raises Writer-Done, and the keepalive pump exits the same way, even
though `Close` was never called. -/
theorem nil_send_acts_as_sentinel :
    (∀ q : List QItem, send q none = q ++ [none]) ∧
    (∀ (ser : WampMessage → Option Nat) (wOk : Nat → Bool) (q rest : List QItem),
      sendHandler ser wOk (q ++ none :: rest) = sendHandler ser wOk (q ++ [none])) ∧
    (∀ (enc : WampMessage → Nat) (msgs : List WampMessage) (rest : List QItem),
      sendHandler (fun m => some (enc m)) (fun _ => true) (send (msgs.map some) none ++ rest) =
        msgs.map (fun m => PeerAction.write (enc m)) ++ [PeerAction.writerDone]) ∧
    (∀ (ser : WampMessage → Option Nat) (wOk : Nat → Bool) (pingOk : Bool) (pp : Nat),
      kaStep ser wOk pingOk pp (KAEvent.item none) = ([PeerAction.writerDone], none)) := by
  refine ⟨fun q => rfl, sendHandler_stops_at_sentinel, ?_, fun ser wOk pingOk pp => rfl⟩
  intro enc msgs rest
  rw [send, List.append_assoc, List.singleton_append, sendHandler_drain]

/-- C1 witness: two concrete messages drained by `Close()`. -/
theorem close_drains_before_close_frame_witness :
    closePeer (fun m => some m.mid) (fun _ => true)
        ([WampMessage.mk 1 false, WampMessage.mk 2 false].map some) =
      PeerAction.enqueueSentinel ::
        [WampMessage.mk 1 false, WampMessage.mk 2 false].map
          (fun m => PeerAction.write m.mid) ++
        [PeerAction.writerDone, PeerAction.awaitWriterDone, PeerAction.closeSignal,
          PeerAction.writeCloseFrame, PeerAction.closeConn] :=
  close_drains_before_close_frame.1 (fun m => m.mid)
    [WampMessage.mk 1 false, WampMessage.mk 2 false]

/-- C2 amended witness: a concrete explicit-close execution. -/
theorem conn_close_counts_witness :
    countCloseConn (explicitCloseExec (fun m => some m.mid) (fun _ => true)
        [some (WampMessage.mk 1 false)] (fun _ => none)) = 2 :=
  conn_close_counts.1 (fun m => some m.mid) (fun _ => true)
    [some (WampMessage.mk 1 false)] (fun _ => none)

/-- C5 witness: a concrete read error with the Explicit-Close Signal
set, and one with it unset. -/
theorem recv_read_error_paths_witness :
    recvHandler (fun _ => none) true [ReadEvent.readErr] =
        [PeerAction.closeConn, PeerAction.closeRd] ∧
    recvHandler (fun _ => none) false [ReadEvent.readErr] =
      [PeerAction.enqueueSentinel, PeerAction.awaitWriterDone,
        PeerAction.closeConn, PeerAction.closeRd] :=
  ⟨(recv_read_error_paths.1 (fun _ => none) []).1,
    recv_read_error_paths.2.1 (fun _ => none) []⟩

/-- C7 witness: a written payload traced back to its real source
message, and a concrete inbound run that never closes the queue. -/
theorem sentinel_invariants_witness :
    (∃ m, some m ∈ ([some (WampMessage.mk 7 false)] : List QItem) ∧
      (fun m : WampMessage => some m.mid) m = some 7) ∧
    PeerAction.closeQueue ∉ recvHandler (fun _ => none) false [ReadEvent.readErr] :=
  ⟨sentinel_invariants.2.2.2.2.1 (fun m => some m.mid) (fun _ => true)
      [some (WampMessage.mk 7 false)] 7 (by decide),
    sentinel_invariants.2.2.2.2.2.2.2.1 (fun _ => none) false [ReadEvent.readErr]⟩

/-- C10 witness: a nil enqueued by `Send` behind one real message. -/
theorem nil_send_acts_as_sentinel_witness :
    sendHandler (fun m => some m.mid) (fun _ => true)
        (send ([WampMessage.mk 3 false].map some) none ++ [some (WampMessage.mk 4 false)]) =
      [PeerAction.write 3, PeerAction.writerDone] := by
  have h := nil_send_acts_as_sentinel.2.2.1 (fun m => m.mid) [WampMessage.mk 3 false]
    [some (WampMessage.mk 4 false)]
  simpa using h
